import Mathlib

/-!
Shallow embedding of the dip-go ledger (src/main.go): accounts, transactions,
handler selection by payment method, and the three settlement strategies
(credit, cash, debit), including the float64 fee arithmetic and the uint32
balance arithmetic of the source. Machine integers are modelled as naturals
with explicit reduction modulo 2 ^ 32 wherever the source performs uint32
arithmetic, and the float64 products of the fee computation are modelled by
exact rational arithmetic followed by rounding to the nearest 53-bit value.
-/

namespace DipGo

/-- Fuel-bounded base-2 logarithm on naturals: for 1 ≤ n < 2 ^ fuel it
computes the position of the leading binary digit of n. -/
def log2floorAux : ℕ → ℕ → ℕ
  | 0, _ => 0
  | fuel + 1, n => if n < 2 then 0 else log2floorAux fuel (n / 2) + 1

/-- Integer power of two as a rational, for both signs of the exponent. -/
def pow2z (e : ℤ) : ℚ :=
  if 0 ≤ e then ((2 ^ e.toNat : ℕ) : ℚ) else (((2 ^ (-e).toNat : ℕ) : ℚ))⁻¹

/-- Binary exponent of a positive rational: the integer e with
2 ^ e ≤ q < 2 ^ (e + 1), computed exactly for 2 ^ (-200) ≤ q < 2 ^ 400,
which covers every float64 product the program forms. -/
def floatExp (q : ℚ) : ℤ :=
  (log2floorAux 600 (Int.toNat ⌊q * 2 ^ 200⌋) : ℤ) - 200

/-- Round a rational to the nearest integer, ties to even. -/
def rnInt (x : ℚ) : ℤ :=
  if x - ⌊x⌋ < 1 / 2 then ⌊x⌋
  else if 1 / 2 < x - ⌊x⌋ then ⌊x⌋ + 1
  else if ⌊x⌋ % 2 = 0 then ⌊x⌋ else ⌊x⌋ + 1

/-- Round a nonnegative rational to the nearest IEEE-754 binary64 value
(round to nearest, ties to even, 53 significant bits). This models the
result of a Go float64 multiplication whose exact product is q; it is
faithful for q = 0 and for any q in the normal, non-overflowing binary64
range, which covers every product float64(amount) * literal formed by the
program (those are 0 or lie between 0.9 and 2 ^ 34). -/
def roundNearestEven53 (q : ℚ) : ℚ :=
  if q ≤ 0 then 0
  else (rnInt (q / pow2z (floatExp q - 52)) : ℚ) * pow2z (floatExp q - 52)

/-- Exact rational value of the Go float64 literal 1.10, i.e. the IEEE-754
binary64 value nearest to 11/10. -/
def c110 : ℚ := 4953959590107546 / 4503599627370496

/-- Exact rational value of the Go float64 literal 0.90, i.e. the IEEE-754
binary64 value nearest to 9/10. -/
def c090 : ℚ := 8106479329266893 / 9007199254740992

/-- Conversion of a nonnegative float64 value to uint32 as compiled by the
Go gc toolchain on amd64 for values below 2 ^ 63: truncation toward zero
followed by reduction to the low 32 bits. For values representable in
uint32 this is plain truncation toward zero, as the Go specification
requires; for larger values the Go specification leaves the result
implementation-defined and this definition follows the amd64 behaviour. -/
def uint32cast (q : ℚ) : ℕ := Int.toNat ⌊q⌋ % 2 ^ 32

/-- Effective settlement amount of the credit strategy: the expression
uint32(float64(t.amount) * 1.10) of the source. -/
def creditEffective (a : ℕ) : ℕ := uint32cast (roundNearestEven53 ((a : ℚ) * c110))

/-- Effective settlement amount of the cash strategy: the expression
uint32(float64(t.amount) * 0.90) of the source. -/
def cashEffective (a : ℕ) : ℕ := uint32cast (roundNearestEven53 ((a : ℚ) * c090))

/-- Effective settlement amount of the debit strategy: t.amount unchanged. -/
def debitEffective (a : ℕ) : ℕ := a

/-- Go uint32 addition on values below 2 ^ 32: wraps modulo 2 ^ 32. -/
def u32add (x y : ℕ) : ℕ := (x + y) % 2 ^ 32

/-- Go uint32 subtraction on values below 2 ^ 32: wraps modulo 2 ^ 32. -/
def u32sub (x y : ℕ) : ℕ := (x + (2 ^ 32 - y % 2 ^ 32)) % 2 ^ 32

/-- The Go type PaymentMethod is a string type; CREDIT, DEBIT and CASH are
its three named values. -/
abbrev PaymentMethod := String

/-- The payment method constant CREDIT of the source. -/
def CREDIT : PaymentMethod := "C"

/-- The payment method constant DEBIT of the source. -/
def DEBIT : PaymentMethod := "D"

/-- The payment method constant CASH of the source. -/
def CASH : PaymentMethod := "S"

/-- The Go type TransactionState is a string type; OPEN, EXPIRED and CLOSED
are its three named values. -/
abbrev TransactionState := String

/-- The transaction state constant OPEN of the source. -/
def OPEN : TransactionState := "O"

/-- The transaction state constant EXPIRED of the source. -/
def EXPIRED : TransactionState := "E"

/-- The transaction state constant CLOSED of the source. -/
def CLOSED : TransactionState := "C"

/-- The three concrete TransactionHandler implementations of the source.
Each Go handler struct is empty, so an interface value holding one carries
no state beyond which implementation it is; a constructor per
implementation is therefore a faithful model of a bound handler. -/
inductive Handler where
  | credit
  | cash
  | debit
deriving DecidableEq

/-- The settlement errors the pay methods build with errors.New, one
constructor per distinct message text: selfTransaction for the message
about an account paying itself, alreadyClosed for the already-closed
message, expired for the expired message, and insufficientBalance for the
not-enough-balance message. Distinct constructors model the distinct
message strings. -/
inductive PayError where
  | selfTransaction
  | alreadyClosed
  | expired
  | insufficientBalance
deriving DecidableEq

/-- The error value returned by selectTransactionHandler when the payment
method matches no case of its switch. -/
inductive HandlerError where
  | couldNotFindValidHandler
deriving DecidableEq

/-- Models the transaction one account can make to another. The Go struct
holds sender and recipient as pointers to Account; here they are addresses
into an explicit heap, so that shared mutable accounts and aliasing behave
as in the source. The numeric fields are uint8 and uint32 in the source;
they are carried as naturals and the uint32 arithmetic is made explicit at
each operation that performs it. -/
structure Transaction where
  id : ℕ
  amount : ℕ
  sender : ℕ
  recipient : ℕ
  state : TransactionState
  paymentMethod : PaymentMethod
  transactionHandler : Option Handler
deriving DecidableEq

/-- Models an account in a bank (id is uint8 and balance is uint32 in the
source; the transactions list exists in the struct but no code in the
repository ever appends to it). -/
structure Account where
  id : ℕ
  name : String
  balance : ℕ
  transactions : List Transaction
deriving DecidableEq

/-- The pointer graph of accounts: each address holds an Account, mutated
in place by the settlement strategies. -/
abbrev Heap := ℕ → Account

/-- Write a new balance to the account at address r, leaving its other
fields unchanged. -/
def setBalance (H : Heap) (r : ℕ) (b : ℕ) : Heap :=
  Function.update H r { H r with balance := b }

/-- Handles transactions of type credit: the pay method of
CreditTransactionHandler, translated check by check. The expression
uint32(float64(t.amount) * 1.10) appears verbatim in the balance check and
in both balance mutations of the source; creditEffective is that
expression. -/
def CreditTransactionHandler.pay (H : Heap) (t : Transaction) :
    Heap × Transaction × Option PayError :=
  if (H t.sender).id = (H t.recipient).id then (H, t, some PayError.selfTransaction)
  else if t.state = CLOSED then (H, t, some PayError.alreadyClosed)
  else if t.state = EXPIRED then (H, t, some PayError.expired)
  else if (H t.sender).balance < creditEffective t.amount then
    (H, t, some PayError.insufficientBalance)
  else
    let H1 := setBalance H t.sender (u32sub (H t.sender).balance (creditEffective t.amount))
    let H2 := setBalance H1 t.recipient (u32add (H1 t.recipient).balance (creditEffective t.amount))
    (H2, { t with state := CLOSED }, none)

/-- Handles transactions of type cash: the pay method of
CashTransactionHandler, with uint32(float64(t.amount) * 0.90) as its
effective amount. -/
def CashTransactionHandler.pay (H : Heap) (t : Transaction) :
    Heap × Transaction × Option PayError :=
  if (H t.sender).id = (H t.recipient).id then (H, t, some PayError.selfTransaction)
  else if t.state = CLOSED then (H, t, some PayError.alreadyClosed)
  else if t.state = EXPIRED then (H, t, some PayError.expired)
  else if (H t.sender).balance < cashEffective t.amount then
    (H, t, some PayError.insufficientBalance)
  else
    let H1 := setBalance H t.sender (u32sub (H t.sender).balance (cashEffective t.amount))
    let H2 := setBalance H1 t.recipient (u32add (H1 t.recipient).balance (cashEffective t.amount))
    (H2, { t with state := CLOSED }, none)

/-- Handles transactions of type debit: the pay method of
DebitTransactionHandler, moving t.amount unchanged. -/
def DebitTransactionHandler.pay (H : Heap) (t : Transaction) :
    Heap × Transaction × Option PayError :=
  if (H t.sender).id = (H t.recipient).id then (H, t, some PayError.selfTransaction)
  else if t.state = CLOSED then (H, t, some PayError.alreadyClosed)
  else if t.state = EXPIRED then (H, t, some PayError.expired)
  else if (H t.sender).balance < debitEffective t.amount then
    (H, t, some PayError.insufficientBalance)
  else
    let H1 := setBalance H t.sender (u32sub (H t.sender).balance (debitEffective t.amount))
    let H2 := setBalance H1 t.recipient (u32add (H1 t.recipient).balance (debitEffective t.amount))
    (H2, { t with state := CLOSED }, none)

/-- Dispatch of the TransactionHandler interface: invoking the pay method
of whichever implementation the interface value holds. -/
def handlerPay : Handler → Heap → Transaction → Heap × Transaction × Option PayError
  | Handler.credit => CreditTransactionHandler.pay
  | Handler.cash => CashTransactionHandler.pay
  | Handler.debit => DebitTransactionHandler.pay

/-- Effective settlement amount used inside the pay method of each
strategy, both in its balance check and in its balance mutations. -/
def handlerEffective : Handler → ℕ → ℕ
  | Handler.credit => creditEffective
  | Handler.cash => cashEffective
  | Handler.debit => debitEffective

/-- Pays transaction: t.transactionHandler.pay(t), with the resulting error
(or nil) propagated to the caller unchanged. When no handler has been
bound, the interface value is nil and the method call faults at run time
(nil pointer dereference panic), so no value at all is returned to the
caller; that fault is modelled as none. -/
def Transaction.makePayment (H : Heap) (t : Transaction) :
    Option (Heap × Transaction × Option PayError) :=
  match t.transactionHandler with
  | none => none
  | some h => some (handlerPay h H t)

/-- Chooses what handler should be used with each transaction: the switch
over t.paymentMethod of the source, binding the matching implementation
and returning nil, or returning the could-not-find error, and binding
nothing, for any other string. -/
def Transaction.selectTransactionHandler (t : Transaction) :
    Transaction × Option HandlerError :=
  if t.paymentMethod = CREDIT then
    ({ t with transactionHandler := some Handler.credit }, none)
  else if t.paymentMethod = CASH then
    ({ t with transactionHandler := some Handler.cash }, none)
  else if t.paymentMethod = DEBIT then
    ({ t with transactionHandler := some Handler.debit }, none)
  else (t, some HandlerError.couldNotFindValidHandler)

/-- One caller-level operation on a running system: select the handler of
transaction i, or invoke makePayment on transaction i. -/
inductive Op where
  | select (i : ℕ)
  | pay (i : ℕ)

/-- Step a heap and a list of live transactions by one operation. A pay on
a transaction with no bound handler panics, after which nothing further
mutates; an out-of-range index addresses no transaction and changes
nothing. -/
def stepOp (w : Heap × List Transaction) (op : Op) : Heap × List Transaction :=
  match op with
  | Op.select i =>
    match w.2.get? i with
    | none => w
    | some t => (w.1, w.2.set i (Transaction.selectTransactionHandler t).1)
  | Op.pay i =>
    match w.2.get? i with
    | none => w
    | some t =>
      match Transaction.makePayment w.1 t with
      | none => w
      | some (H2, t2, _) => (H2, w.2.set i t2)

/-- Run a sequence of caller-level operations from left to right. -/
def runOps (w : Heap × List Transaction) (ops : List Op) : Heap × List Transaction :=
  ops.foldl stepOp w

/-- Every balance on the heap is a value representable in uint32, in
particular a non-negative integer below 2 ^ 32. -/
def balanceInv (H : Heap) : Prop := ∀ n, (H n).balance < 2 ^ 32

/-! Lemmas about the binary64 rounding model, leading to a closed form for
the credit and cash effective amounts. -/

lemma log2floorAux_le (f : ℕ) : ∀ n, 1 ≤ n → 2 ^ log2floorAux f n ≤ n := by
  induction f with
  | zero => intro n hn; simpa [log2floorAux] using hn
  | succ f ih =>
    intro n hn
    rw [log2floorAux]
    by_cases h2 : n < 2
    · simpa [h2] using hn
    · rw [if_neg h2]
      have h1 : 1 ≤ n / 2 := by omega
      calc 2 ^ (log2floorAux f (n / 2) + 1) = 2 ^ log2floorAux f (n / 2) * 2 := by ring
        _ ≤ n / 2 * 2 := Nat.mul_le_mul_right 2 (ih (n / 2) h1)
        _ ≤ n := by omega

lemma pow2z_eq (e : ℤ) : pow2z e = (2 : ℚ) ^ e := by
  rw [pow2z]
  by_cases he : 0 ≤ e
  · rw [if_pos he]
    push_cast
    rw [← zpow_natCast (2 : ℚ) e.toNat]
    congr 1
    omega
  · rw [if_neg he]
    push_cast
    rw [← zpow_natCast (2 : ℚ) (-e).toNat, ← zpow_neg]
    congr 1
    omega

lemma pow2z_pos (e : ℤ) : 0 < pow2z e := by
  rw [pow2z_eq]
  exact zpow_pos (by norm_num) e

lemma floatExp_le (q : ℚ) (M : ℤ) (h1 : 1 ≤ q * 2 ^ 200) (h2 : q < (2 : ℚ) ^ (M + 1)) :
    floatExp q ≤ M := by
  have hfl : (0 : ℤ) ≤ ⌊q * 2 ^ 200⌋ := Int.le_floor.2 (by push_cast; linarith)
  set n := Int.toNat ⌊q * 2 ^ 200⌋ with hn
  have hn1 : 1 ≤ n := by
    have h1i : (1 : ℤ) ≤ ⌊q * 2 ^ 200⌋ := Int.le_floor.2 (by push_cast; linarith)
    omega
  have hnq : (n : ℚ) ≤ q * 2 ^ 200 := by
    have h : ((n : ℤ) : ℚ) ≤ q * 2 ^ 200 := by
      rw [hn, Int.toNat_of_nonneg hfl]
      exact Int.floor_le _
    exact_mod_cast h
  have hq200 : q * 2 ^ 200 < (2 : ℚ) ^ (M + 201) := by
    have hsplit : (2 : ℚ) ^ (M + 201) = (2 : ℚ) ^ (M + 1) * 2 ^ 200 := by
      rw [← zpow_natCast (2 : ℚ) 200, ← zpow_add₀ (by norm_num : (2 : ℚ) ≠ 0)]
      norm_num
      ring_nf
    rw [hsplit]
    exact mul_lt_mul_of_pos_right h2 (by positivity)
  have hL : ((log2floorAux 600 n : ℤ)) < M + 201 := by
    have hlt : (2 : ℚ) ^ ((log2floorAux 600 n : ℕ) : ℤ) < (2 : ℚ) ^ (M + 201) := by
      calc (2 : ℚ) ^ ((log2floorAux 600 n : ℕ) : ℤ)
          = ((2 ^ log2floorAux 600 n : ℕ) : ℚ) := by
            rw [zpow_natCast]; push_cast; ring
        _ ≤ (n : ℚ) := by exact_mod_cast log2floorAux_le 600 n hn1
        _ ≤ q * 2 ^ 200 := hnq
        _ < (2 : ℚ) ^ (M + 201) := hq200
    exact (zpow_lt_zpow_iff_right₀ (by norm_num : (1 : ℚ) < 2)).1 hlt
  rw [floatExp, ← hn]
  omega

lemma floor_le_rnInt (x : ℚ) : ⌊x⌋ ≤ rnInt x := by
  rw [rnInt]
  split_ifs <;> omega

lemma rnInt_le (x : ℚ) : (rnInt x : ℚ) ≤ x + 1 / 2 := by
  rw [rnInt]
  have h1 := Int.floor_le x
  have h2 := Int.lt_floor_add_one x
  split_ifs with ha hb hc
  · linarith
  · push_cast
    linarith
  · linarith
  · push_cast
    linarith

lemma le_rnInt (x : ℚ) : x - 1 / 2 ≤ (rnInt x : ℚ) := by
  rw [rnInt]
  have h1 := Int.floor_le x
  have h2 := Int.lt_floor_add_one x
  split_ifs with ha hb hc
  · linarith
  · push_cast
    linarith
  · linarith
  · push_cast
    linarith

lemma roundNearestEven53_le (q : ℚ) (hq : 0 < q) :
    roundNearestEven53 q ≤ q + pow2z (floatExp q - 52) / 2 := by
  rw [roundNearestEven53, if_neg (not_le.2 hq)]
  have hs : 0 < pow2z (floatExp q - 52) := pow2z_pos _
  have h := rnInt_le (q / pow2z (floatExp q - 52))
  calc (rnInt (q / pow2z (floatExp q - 52)) : ℚ) * pow2z (floatExp q - 52)
      ≤ (q / pow2z (floatExp q - 52) + 1 / 2) * pow2z (floatExp q - 52) :=
        mul_le_mul_of_nonneg_right h hs.le
    _ = q + pow2z (floatExp q - 52) / 2 := by
        rw [add_mul, div_mul_cancel₀ _ (ne_of_gt hs)]
        ring

lemma le_roundNearestEven53 (q : ℚ) (hq : 0 < q) :
    q - pow2z (floatExp q - 52) / 2 ≤ roundNearestEven53 q := by
  rw [roundNearestEven53, if_neg (not_le.2 hq)]
  have hs : 0 < pow2z (floatExp q - 52) := pow2z_pos _
  have h := le_rnInt (q / pow2z (floatExp q - 52))
  calc q - pow2z (floatExp q - 52) / 2
      = (q / pow2z (floatExp q - 52) - 1 / 2) * pow2z (floatExp q - 52) := by
        rw [sub_mul, div_mul_cancel₀ _ (ne_of_gt hs)]
        ring
    _ ≤ (rnInt (q / pow2z (floatExp q - 52)) : ℚ) * pow2z (floatExp q - 52) :=
        mul_le_mul_of_nonneg_right h hs.le

lemma int_le_roundNearestEven53 (q : ℚ) (k : ℤ) (hq : 0 < q)
    (hE : floatExp q ≤ 52) (hk : (k : ℚ) ≤ q) :
    (k : ℚ) ≤ roundNearestEven53 q := by
  rw [roundNearestEven53, if_neg (not_le.2 hq)]
  set E := floatExp q with hEdef
  set s := pow2z (E - 52) with hsdef
  have hs : 0 < s := pow2z_pos _
  have hinv : ((2 : ℚ) ^ (52 - E).toNat) * s = 1 := by
    rw [hsdef, pow2z_eq, ← zpow_natCast (2 : ℚ) (52 - E).toNat,
      ← zpow_add₀ (by norm_num : (2 : ℚ) ≠ 0)]
    have hz : ((52 - E).toNat : ℤ) + (E - 52) = 0 := by omega
    rw [hz, zpow_zero]
  have hKs : ((k * 2 ^ (52 - E).toNat : ℤ) : ℚ) * s = k := by
    push_cast
    calc (k : ℚ) * 2 ^ (52 - E).toNat * s = k * ((2 : ℚ) ^ (52 - E).toNat * s) := by ring
      _ = k := by rw [hinv, mul_one]
  have hKle : k * 2 ^ (52 - E).toNat ≤ ⌊q / s⌋ := by
    rw [Int.le_floor, le_div_iff₀ hs, hKs]
    exact hk
  calc (k : ℚ) = ((k * 2 ^ (52 - E).toNat : ℤ) : ℚ) * s := hKs.symm
    _ ≤ (⌊q / s⌋ : ℚ) * s :=
        mul_le_mul_of_nonneg_right (by exact_mod_cast hKle) hs.le
    _ ≤ (rnInt (q / s) : ℚ) * s :=
        mul_le_mul_of_nonneg_right (by exact_mod_cast floor_le_rnInt (q / s)) hs.le

lemma pow2z_neg_natCast (n : ℕ) : pow2z (-(n : ℤ)) = ((2 ^ n : ℕ) : ℚ)⁻¹ := by
  rw [pow2z_eq, zpow_neg, zpow_natCast]
  push_cast
  ring

lemma floor_roundNearestEven53_mul_div10 (p a : ℕ) (c : ℚ)
    (hp0 : 0 < p) (hp : p ≤ 11) (ha0 : 0 < a) (ha : a ≤ 2 ^ 32)
    (hc0 : (p : ℚ) / 10 ≤ c) (hc1 : c ≤ (p : ℚ) / 10 + pow2z (-52)) :
    ⌊roundNearestEven53 ((a : ℚ) * c)⌋ = ((p * a / 10 : ℕ) : ℤ) := by
  have hp0Q : (0 : ℚ) < (p : ℚ) := by exact_mod_cast hp0
  have hpQ : ((p : ℚ)) ≤ 11 := by exact_mod_cast hp
  have ha0Q : (0 : ℚ) < (a : ℚ) := by exact_mod_cast ha0
  have ha1Q : (1 : ℚ) ≤ (a : ℚ) := by exact_mod_cast ha0
  have haQ : ((a : ℚ)) ≤ 2 ^ 32 := by exact_mod_cast ha
  have hc_pos : 0 < c := lt_of_lt_of_le (by positivity) hc0
  set q : ℚ := (a : ℚ) * c with hqdef
  have hq0 : 0 < q := mul_pos ha0Q hc_pos
  have h52 : pow2z (-52) = 1 / 4503599627370496 := by
    rw [show (-52 : ℤ) = -((52 : ℕ) : ℤ) by norm_num, pow2z_neg_natCast]
    norm_num
  have hc110 : (1 : ℚ) / 10 ≤ c := by
    refine le_trans ?_ hc0
    have : (1 : ℚ) ≤ (p : ℚ) := by exact_mod_cast hp0
    linarith
  have hq110 : (1 : ℚ) / 10 ≤ q := by
    calc (1 : ℚ) / 10 = 1 * (1 / 10) := by ring
      _ ≤ (a : ℚ) * c := by
          exact mul_le_mul ha1Q hc110 (by norm_num) (le_of_lt ha0Q)
  have hE : floatExp q ≤ 33 := by
    apply floatExp_le
    · have hstep : (1 : ℚ) / 10 * 2 ^ 200 ≤ q * 2 ^ 200 :=
        mul_le_mul_of_nonneg_right hq110 (by positivity)
      have hbase : (1 : ℚ) ≤ 1 / 10 * 2 ^ 200 := by norm_num
      linarith
    · have hc2 : c ≤ 2 := by
        rw [h52] at hc1
        linarith
      have hq33 : q ≤ 2 ^ 32 * 2 := by
        calc q = (a : ℚ) * c := rfl
          _ ≤ 2 ^ 32 * 2 := mul_le_mul haQ hc2 (le_of_lt hc_pos) (by positivity)
      have h234 : (2 : ℚ) ^ ((33 : ℤ) + 1) = 17179869184 := by
        rw [show ((33 : ℤ) + 1) = ((34 : ℕ) : ℤ) from rfl, zpow_natCast]
        norm_num
      rw [h234]
      norm_num at hq33 ⊢
      linarith
  set E := floatExp q with hEdef
  set s := pow2z (E - 52) with hsdef
  have hs0 : 0 < s := pow2z_pos _
  have h19 : pow2z (-19) = 1 / 524288 := by
    rw [show (-19 : ℤ) = -((19 : ℕ) : ℤ) by norm_num, pow2z_neg_natCast]
    norm_num
  have hs_le : s ≤ 1 / 524288 := by
    rw [← h19, hsdef, pow2z_eq, pow2z_eq]
    exact zpow_le_zpow_right₀ (by norm_num) (by omega)
  have hub := roundNearestEven53_le q hq0
  have hlb := le_roundNearestEven53 q hq0
  rw [← hEdef, ← hsdef] at hub hlb
  set k : ℕ := p * a / 10 with hkdef
  set r : ℕ := p * a % 10 with hrdef
  have hkr : p * a = 10 * k + r := by
    rw [hkdef, hrdef]
    omega
  have hr9 : r ≤ 9 := by
    rw [hrdef]
    omega
  have hpaQ : (p : ℚ) * a = 10 * (k : ℚ) + (r : ℚ) := by exact_mod_cast hkr
  have hqlow : 10 * (k : ℚ) + (r : ℚ) ≤ 10 * q := by
    calc 10 * (k : ℚ) + (r : ℚ) = (p : ℚ) * a := hpaQ.symm
      _ = (a : ℚ) * ((p : ℚ) / 10) * 10 := by ring
      _ ≤ (a : ℚ) * c * 10 := by
          have := mul_le_mul_of_nonneg_left hc0 (le_of_lt ha0Q)
          linarith
      _ = 10 * q := by rw [hqdef]; ring
  have hqhigh : q ≤ (10 * (k : ℚ) + (r : ℚ)) / 10 + 1 / 1048576 := by
    have hmul : (a : ℚ) * c ≤ (a : ℚ) * ((p : ℚ) / 10 + pow2z (-52)) :=
      mul_le_mul_of_nonneg_left hc1 (le_of_lt ha0Q)
    rw [h52] at hmul
    have hexp : (a : ℚ) * ((p : ℚ) / 10 + 1 / 4503599627370496)
        = (p : ℚ) * a / 10 + (a : ℚ) * (1 / 4503599627370496) := by ring
    rw [hexp, hpaQ] at hmul
    have herr : (a : ℚ) * (1 / 4503599627370496) ≤ 1 / 1048576 := by
      have := haQ
      norm_num at this ⊢
      linarith
    rw [hqdef]
    linarith
  rw [Int.floor_eq_iff]
  constructor
  · -- lower bound: k ≤ roundNearestEven53 q
    by_cases hr0 : r = 0
    · have hkq : ((k : ℤ) : ℚ) ≤ q := by
        push_cast
        rw [hr0] at hqlow
        push_cast at hqlow
        linarith
      have := int_le_roundNearestEven53 q (k : ℤ) hq0 (by omega) hkq
      push_cast at this ⊢
      exact this
    · have hr1 : (1 : ℚ) ≤ (r : ℚ) := by
        have : 1 ≤ r := by omega
        exact_mod_cast this
      push_cast
      have : (k : ℚ) + 1 / 10 - 1 / 1048576 ≤ roundNearestEven53 q := by
        refine le_trans ?_ hlb
        have hq_ge : (k : ℚ) + 1 / 10 ≤ q := by linarith
        linarith
      linarith
  · -- upper bound: roundNearestEven53 q < k + 1
    have hr9Q : (r : ℚ) ≤ 9 := by exact_mod_cast hr9
    push_cast
    have : roundNearestEven53 q ≤ (k : ℚ) + (r : ℚ) / 10 + 1 / 1048576 + 1 / 1048576 := by
      refine le_trans hub ?_
      linarith
    linarith

/-- Closed form of the credit effective amount: for every uint32 amount the
float64 computation uint32(float64(a) * 1.10) equals the exact rational
floor of 11 a / 10, reduced modulo 2 ^ 32 by the final conversion. -/
lemma creditEffective_eq (a : ℕ) (ha : a ≤ 2 ^ 32) :
    creditEffective a = 11 * a / 10 % 2 ^ 32 := by
  rcases Nat.eq_zero_or_pos a with h0 | hpos
  · subst h0
    rw [creditEffective, uint32cast]
    have hq : ((0 : ℕ) : ℚ) * c110 = 0 := by norm_num
    rw [hq, roundNearestEven53]
    norm_num
  · have hc0 : ((11 : ℕ) : ℚ) / 10 ≤ c110 := by
      rw [c110]
      norm_num
    have hc1 : c110 ≤ ((11 : ℕ) : ℚ) / 10 + pow2z (-52) := by
      rw [c110, show (-52 : ℤ) = -((52 : ℕ) : ℤ) by norm_num, pow2z_neg_natCast]
      norm_num
    have h := floor_roundNearestEven53_mul_div10 11 a c110 (by norm_num) (by norm_num)
      hpos ha hc0 hc1
    rw [creditEffective, uint32cast, h, Int.toNat_natCast]

/-- Closed form of the cash effective amount: for every uint32 amount the
float64 computation uint32(float64(a) * 0.90) equals the exact rational
floor of 9 a / 10 (always below 2 ^ 32, so the conversion is exact). -/
lemma cashEffective_eq (a : ℕ) (ha : a ≤ 2 ^ 32) :
    cashEffective a = 9 * a / 10 := by
  rcases Nat.eq_zero_or_pos a with h0 | hpos
  · subst h0
    rw [cashEffective, uint32cast]
    have hq : ((0 : ℕ) : ℚ) * c090 = 0 := by norm_num
    rw [hq, roundNearestEven53]
    norm_num
  · have hc0 : ((9 : ℕ) : ℚ) / 10 ≤ c090 := by
      rw [c090]
      norm_num
    have hc1 : c090 ≤ ((9 : ℕ) : ℚ) / 10 + pow2z (-52) := by
      rw [c090, show (-52 : ℤ) = -((52 : ℕ) : ℤ) by norm_num, pow2z_neg_natCast]
      norm_num
    have h := floor_roundNearestEven53_mul_div10 9 a c090 (by norm_num) (by norm_num)
      hpos ha hc0 hc1
    rw [cashEffective, uint32cast, h, Int.toNat_natCast]
    omega

/-- The credit effective amount is always a uint32 value. -/
lemma creditEffective_lt (a : ℕ) : creditEffective a < 2 ^ 32 := by
  rw [creditEffective, uint32cast]
  omega

/-- The cash effective amount is always a uint32 value. -/
lemma cashEffective_lt (a : ℕ) : cashEffective a < 2 ^ 32 := by
  rw [cashEffective, uint32cast]
  omega

/-! Support lemmas characterizing the branches of the three pay methods. -/

/-- Heap after the two balance mutations of a successful settlement, in the
order the source performs them: debit the sender, then credit the
recipient. -/
def settleHeap (H : Heap) (t : Transaction) (eff : ℕ) : Heap :=
  setBalance (setBalance H t.sender (u32sub (H t.sender).balance eff)) t.recipient
    (u32add ((setBalance H t.sender (u32sub (H t.sender).balance eff)) t.recipient).balance eff)

lemma setBalance_id (H : Heap) (r b n : ℕ) : ((setBalance H r b) n).id = (H n).id := by
  rw [setBalance]
  by_cases h : n = r
  · subst h
    rw [Function.update_same]
  · rw [Function.update_noteq h]

lemma settleHeap_id (H : Heap) (t : Transaction) (eff n : ℕ) :
    ((settleHeap H t eff) n).id = (H n).id := by
  rw [settleHeap, setBalance_id, setBalance_id]

lemma settleHeap_sender (H : Heap) (t : Transaction) (eff : ℕ)
    (hne : t.sender ≠ t.recipient) :
    ((settleHeap H t eff) t.sender).balance = u32sub (H t.sender).balance eff := by
  rw [settleHeap, setBalance, Function.update_noteq hne, setBalance, Function.update_same]

lemma settleHeap_recipient (H : Heap) (t : Transaction) (eff : ℕ)
    (hne : t.sender ≠ t.recipient) :
    ((settleHeap H t eff) t.recipient).balance = u32add (H t.recipient).balance eff := by
  rw [settleHeap, setBalance, Function.update_same]
  rw [setBalance, Function.update_noteq (fun h => hne h.symm)]

lemma settleHeap_other (H : Heap) (t : Transaction) (eff n : ℕ)
    (h1 : n ≠ t.sender) (h2 : n ≠ t.recipient) : (settleHeap H t eff) n = H n := by
  rw [settleHeap, setBalance, Function.update_noteq h2, setBalance, Function.update_noteq h1]

lemma settleHeap_balance_lt (H : Heap) (t : Transaction) (eff n : ℕ)
    (hinv : balanceInv H) : ((settleHeap H t eff) n).balance < 2 ^ 32 := by
  rw [settleHeap]
  by_cases h2 : n = t.recipient
  · subst h2
    simp only [setBalance, Function.update_same, u32add]
    omega
  · rw [setBalance, Function.update_noteq h2]
    by_cases h1 : n = t.sender
    · subst h1
      simp only [setBalance, Function.update_same, u32sub]
      omega
    · rw [setBalance, Function.update_noteq h1]
      exact hinv n

lemma handlerPay_self (h : Handler) (H : Heap) (t : Transaction)
    (hid : (H t.sender).id = (H t.recipient).id) :
    handlerPay h H t = (H, t, some PayError.selfTransaction) := by
  cases h <;>
    simp [handlerPay, CreditTransactionHandler.pay, CashTransactionHandler.pay,
      DebitTransactionHandler.pay, hid]

lemma handlerPay_alreadyClosed (h : Handler) (H : Heap) (t : Transaction)
    (hid : (H t.sender).id ≠ (H t.recipient).id) (hst : t.state = CLOSED) :
    handlerPay h H t = (H, t, some PayError.alreadyClosed) := by
  cases h <;>
    simp [handlerPay, CreditTransactionHandler.pay, CashTransactionHandler.pay,
      DebitTransactionHandler.pay, hid, hst]

lemma handlerPay_expired (h : Handler) (H : Heap) (t : Transaction)
    (hid : (H t.sender).id ≠ (H t.recipient).id) (hst : t.state = EXPIRED) :
    handlerPay h H t = (H, t, some PayError.expired) := by
  cases h <;>
    simp [handlerPay, CreditTransactionHandler.pay, CashTransactionHandler.pay,
      DebitTransactionHandler.pay, hid, hst, CLOSED, EXPIRED]

lemma handlerPay_insufficient (h : Handler) (H : Heap) (t : Transaction)
    (hid : (H t.sender).id ≠ (H t.recipient).id)
    (hcl : t.state ≠ CLOSED) (hex : t.state ≠ EXPIRED)
    (hlt : (H t.sender).balance < handlerEffective h t.amount) :
    handlerPay h H t = (H, t, some PayError.insufficientBalance) := by
  cases h <;> simp only [handlerEffective] at hlt <;>
    simp [handlerPay, CreditTransactionHandler.pay, CashTransactionHandler.pay,
      DebitTransactionHandler.pay, hid, hcl, hex, hlt]

lemma handlerPay_success (h : Handler) (H : Heap) (t : Transaction)
    (hid : (H t.sender).id ≠ (H t.recipient).id)
    (hcl : t.state ≠ CLOSED) (hex : t.state ≠ EXPIRED)
    (hge : handlerEffective h t.amount ≤ (H t.sender).balance) :
    handlerPay h H t =
      (settleHeap H t (handlerEffective h t.amount), { t with state := CLOSED }, none) := by
  cases h <;> simp only [handlerEffective] at hge ⊢ <;>
    simp [handlerPay, CreditTransactionHandler.pay, CashTransactionHandler.pay,
      DebitTransactionHandler.pay, settleHeap, hid, hcl, hex, not_lt.2 hge]

lemma handlerPay_error_inv (h : Handler) (H H2 : Heap) (t t2 : Transaction) (e : PayError)
    (hres : handlerPay h H t = (H2, t2, some e)) : H2 = H ∧ t2 = t := by
  cases h <;>
    · simp only [handlerPay, CreditTransactionHandler.pay, CashTransactionHandler.pay,
        DebitTransactionHandler.pay] at hres
      split_ifs at hres <;> simp only [Prod.mk.injEq] at hres <;>
        first
          | exact ⟨hres.1.symm, hres.2.1.symm⟩
          | simp_all

lemma handlerPay_success_inv (h : Handler) (H H2 : Heap) (t t2 : Transaction)
    (hres : handlerPay h H t = (H2, t2, none)) :
    (H t.sender).id ≠ (H t.recipient).id ∧ t.state ≠ CLOSED ∧ t.state ≠ EXPIRED ∧
      handlerEffective h t.amount ≤ (H t.sender).balance ∧
      H2 = settleHeap H t (handlerEffective h t.amount) ∧
      t2 = { t with state := CLOSED } := by
  have hid : (H t.sender).id ≠ (H t.recipient).id := by
    intro hid
    rw [handlerPay_self h H t hid] at hres
    simp at hres
  have hcl : t.state ≠ CLOSED := by
    intro hst
    rw [handlerPay_alreadyClosed h H t hid hst] at hres
    simp at hres
  have hex : t.state ≠ EXPIRED := by
    intro hst
    rw [handlerPay_expired h H t hid hst] at hres
    simp at hres
  have hge : handlerEffective h t.amount ≤ (H t.sender).balance := by
    by_contra hlt
    rw [handlerPay_insufficient h H t hid hcl hex (not_le.1 hlt)] at hres
    simp at hres
  rw [handlerPay_success h H t hid hcl hex hge] at hres
  simp only [Prod.mk.injEq] at hres
  exact ⟨hid, hcl, hex, hge, hres.1.symm, hres.2.1.symm⟩

lemma makePayment_bound (H : Heap) (t : Transaction) (h : Handler)
    (hb : t.transactionHandler = some h) :
    Transaction.makePayment H t = some (handlerPay h H t) := by
  rw [Transaction.makePayment, hb]

lemma makePayment_unbound (H : Heap) (t : Transaction)
    (hb : t.transactionHandler = none) :
    Transaction.makePayment H t = none := by
  rw [Transaction.makePayment, hb]


/-! Concrete fixtures used by witnesses and counterexamples. -/

/-- Heap of the demonstration scenario: address 0 holds account 1 with
balance 150, every other address holds account 2 with balance 5. -/
def demoHeap : Heap :=
  fun n => if n = 0 then ⟨1, "My first account", 150, []⟩ else ⟨2, "Online store", 5, []⟩

/-- An open debit transaction over the demonstration accounts, with the
debit handler bound. -/
def demoTx : Transaction := ⟨1, 55, 0, 1, OPEN, DEBIT, some Handler.debit⟩

/-- Heap whose sender account holds the largest uint32 balance and whose
recipient account holds balance 1. -/
def maxHeap : Heap :=
  fun n => if n = 0 then ⟨1, "rich", 4294967295, []⟩ else ⟨2, "poor", 1, []⟩

/-- An open debit transaction moving the largest uint32 amount. -/
def c1tx : Transaction := ⟨1, 4294967295, 0, 1, OPEN, DEBIT, some Handler.debit⟩

/-- A heap with a single repeated account. -/
def c3heap : Heap := fun _ => ⟨1, "solo", 0, []⟩

/-- An open cash transaction on which no handler has been bound yet. -/
def c3tx : Transaction := ⟨1, 55, 0, 1, OPEN, CASH, none⟩

/-- An open debit self-transaction: sender and recipient are the same
account pointer. -/
def c4tx : Transaction := ⟨1, 55, 0, 0, OPEN, DEBIT, some Handler.debit⟩

/-- Heap of the insufficient-balance scenario of the specification:
sender balance 10, recipient balance 5. -/
def c5heap : Heap :=
  fun n => if n = 0 then ⟨1, "low", 10, []⟩ else ⟨2, "other", 5, []⟩

/-- An open debit transaction for amount 55, bound to the debit handler. -/
def c5tx : Transaction := ⟨1, 55, 0, 1, OPEN, DEBIT, some Handler.debit⟩

/-- A CLOSED debit self-transaction. -/
def c7tx : Transaction := ⟨1, 55, 0, 0, CLOSED, DEBIT, some Handler.debit⟩

/-- A CLOSED debit transaction between distinct accounts. -/
def c7wtx : Transaction := ⟨1, 55, 0, 1, CLOSED, DEBIT, some Handler.debit⟩

/-- Heap whose two accounts both hold the largest uint32 balance. -/
def c8heap : Heap :=
  fun n => if n = 0 then ⟨1, "left", 4294967295, []⟩ else ⟨2, "right", 4294967295, []⟩

/-- An open debit transaction moving the largest uint32 amount between the
two saturated accounts. -/
def c8tx : Transaction := ⟨1, 4294967295, 0, 1, OPEN, DEBIT, some Handler.debit⟩

/-- Heap whose recipient balance is within 100 units of wrapping. -/
def c10heap : Heap :=
  fun n => if n = 0 then ⟨1, "payer", 4294967295, []⟩ else ⟨2, "full", 4294967290, []⟩

/-- An open debit transaction for amount 100, enough to wrap the recipient
balance of c10heap. -/
def c10tx : Transaction := ⟨1, 100, 0, 1, OPEN, DEBIT, some Handler.debit⟩

/-! Claim C3. -/

/-- C3 counterexample: invoking makePayment on a transaction whose
strategy was never bound does not return any error value to the caller at
all; the nil interface method call faults (modelled as none), so no
returned no-strategy-bound error exists, contrary to the claim. -/
theorem c3_counterexample : Transaction.makePayment c3heap c3tx = none := rfl

/-- C3 (amended): for every transaction whose settlement strategy has not
been bound by handler selection, makePayment does not return an error
value; it dereferences a nil interface and faults (a raised run-time
panic, modelled as none), and the error taxonomy of the code contains no
no-strategy-bound error value. -/
theorem c3_unbound_strategy_faults (H : Heap) (t : Transaction)
    (hb : t.transactionHandler = none) : Transaction.makePayment H t = none :=
  makePayment_unbound H t hb

/-- Witness for C3 at a concrete unbound transaction. -/
theorem c3_witness :
    c3tx.transactionHandler = none ∧ Transaction.makePayment demoHeap c3tx = none :=
  ⟨rfl, c3_unbound_strategy_faults demoHeap c3tx rfl⟩

/-! Claim C4. -/

/-- C4: whenever makePayment returns one of the four settlement errors,
the heap (hence both balances) and the transaction (hence its state) are
exactly as they were before the call: every error return of the three pay
methods precedes every mutation, so failed settlement has no partial
state. -/
theorem c4_error_no_mutation (H : Heap) (t : Transaction) (h : Handler)
    (r : Heap × Transaction × Option PayError) (e : PayError)
    (hb : t.transactionHandler = some h)
    (hr : Transaction.makePayment H t = some r)
    (he : r.2.2 = some e) : r.1 = H ∧ r.2.1 = t := by
  rw [makePayment_bound H t h hb] at hr
  have hpe : handlerPay h H t = (r.1, r.2.1, some e) := by
    rw [← he]
    exact Option.some.inj hr
  exact handlerPay_error_inv h H r.1 t r.2.1 e hpe

/-- Witness for C4 at a concrete failing call (a self-transaction). -/
theorem c4_witness :
    (demoHeap, c4tx, some PayError.selfTransaction).1 = demoHeap ∧
    (demoHeap, c4tx, some PayError.selfTransaction).2.1 = c4tx :=
  c4_error_no_mutation demoHeap c4tx Handler.debit
    (demoHeap, c4tx, some PayError.selfTransaction) PayError.selfTransaction rfl rfl rfl

/-! Claim C5. -/

/-- C5: every settlement strategy validates in the fixed short-circuit
order. It returns the self-transaction error whenever sender and recipient
are the same account (the code compares account ids, which the
specification requires to be unique), regardless of state or balance; the
already-closed error whenever the accounts are distinct and the state is
CLOSED; the expired error whenever the accounts are distinct and the state
is EXPIRED; and the insufficient-balance error whenever the accounts are
distinct, the state is neither CLOSED nor EXPIRED, and the sender balance
is below that strategy effective settlement amount. No error path mutates
anything. -/
theorem c5_validation_order (h : Handler) (H : Heap) (t : Transaction) :
    ((H t.sender).id = (H t.recipient).id →
      handlerPay h H t = (H, t, some PayError.selfTransaction)) ∧
    ((H t.sender).id ≠ (H t.recipient).id → t.state = CLOSED →
      handlerPay h H t = (H, t, some PayError.alreadyClosed)) ∧
    ((H t.sender).id ≠ (H t.recipient).id → t.state = EXPIRED →
      handlerPay h H t = (H, t, some PayError.expired)) ∧
    ((H t.sender).id ≠ (H t.recipient).id → t.state ≠ CLOSED → t.state ≠ EXPIRED →
      (H t.sender).balance < handlerEffective h t.amount →
      handlerPay h H t = (H, t, some PayError.insufficientBalance)) :=
  ⟨handlerPay_self h H t, handlerPay_alreadyClosed h H t, handlerPay_expired h H t,
    handlerPay_insufficient h H t⟩

/-- Witness for C5: the insufficient-balance scenario of the
specification (balance 10, debit amount 55). -/
theorem c5_witness :
    handlerPay Handler.debit c5heap c5tx = (c5heap, c5tx, some PayError.insufficientBalance) :=
  (c5_validation_order Handler.debit c5heap c5tx).2.2.2 (by decide) (by decide) (by decide)
    (by decide)

/-! Claim C7. -/

/-- C7 counterexample: a CLOSED transaction whose sender and recipient are
the same account fails with the self-transaction error, not the
already-closed error, because the self check runs first; so not every
CLOSED transaction with a bound strategy fails with AlreadyClosed. -/
theorem c7_counterexample :
    (Option.map (fun r => r.2.2) (Transaction.makePayment demoHeap c7tx)) =
      some (some PayError.selfTransaction) ∧
    PayError.selfTransaction ≠ PayError.alreadyClosed := ⟨rfl, by decide⟩

/-- C7 (amended): for every transaction whose state is CLOSED, whose
strategy is bound, and whose sender and recipient are distinct accounts
(as they are for any transaction closed by a successful settlement), every
call to makePayment fails with the already-closed error and mutates
nothing; and after any successful settlement, a second makePayment on the
resulting transaction always fails with the already-closed error: CLOSED
is terminal. -/
theorem c7_closed_is_terminal :
    (∀ (H : Heap) (t : Transaction) (h : Handler), t.transactionHandler = some h →
      (H t.sender).id ≠ (H t.recipient).id → t.state = CLOSED →
      Transaction.makePayment H t = some (H, t, some PayError.alreadyClosed)) ∧
    (∀ (H H2 : Heap) (t t2 : Transaction) (h : Handler), t.transactionHandler = some h →
      Transaction.makePayment H t = some (H2, t2, none) →
      Transaction.makePayment H2 t2 = some (H2, t2, some PayError.alreadyClosed)) := by
  constructor
  · intro H t h hb hid hst
    rw [makePayment_bound H t h hb, handlerPay_alreadyClosed h H t hid hst]
  · intro H H2 t t2 h hb hsuc
    rw [makePayment_bound H t h hb] at hsuc
    obtain ⟨hid, hcl, hex, hge, hH2, ht2⟩ :=
      handlerPay_success_inv h H H2 t t2 (Option.some.inj hsuc)
    have hb2 : t2.transactionHandler = some h := by rw [ht2]; exact hb
    have hid2 : (H2 t2.sender).id ≠ (H2 t2.recipient).id := by
      rw [ht2, hH2]
      simpa [settleHeap_id] using hid
    have hst2 : t2.state = CLOSED := by rw [ht2]
    rw [makePayment_bound H2 t2 h hb2, handlerPay_alreadyClosed h H2 t2 hid2 hst2]

/-- Witness for C7 at a concrete CLOSED transaction between distinct
accounts. -/
theorem c7_witness :
    Transaction.makePayment demoHeap c7wtx =
      some (demoHeap, c7wtx, some PayError.alreadyClosed) :=
  c7_closed_is_terminal.1 demoHeap c7wtx Handler.debit rfl (by decide) rfl


/-! Claim C1. -/

/-- C1 counterexample: a debit settlement of the largest uint32 amount
into an account holding balance 1 succeeds, but the recipient balance
wraps to 0 instead of increasing by the effective amount (its stored value
plus the effective amount would be 2 ^ 32). -/
theorem c1_counterexample :
    (Option.map (fun r => (r.1 c1tx.recipient).balance)
      (Transaction.makePayment maxHeap c1tx)) = some 0 ∧
    (maxHeap c1tx.recipient).balance + handlerEffective Handler.debit c1tx.amount =
      4294967296 ∧
    (0 : ℕ) ≠ 4294967296 := ⟨rfl, rfl, by decide⟩

/-- C1 (amended): for every payment method and every transaction in state
OPEN whose sender and recipient are distinct accounts, whose sender
balance is at least the effective settlement amount of the bound strategy,
and whose recipient balance plus that effective amount still fits in
uint32, makePayment succeeds, the sender balance decreases by exactly the
effective amount, the recipient balance increases by exactly the effective
amount, and the transaction state becomes CLOSED. (Without the fits-in-
uint32 condition the recipient balance wraps modulo 2 ^ 32, as
c1_counterexample shows.) -/
theorem c1_settlement_exact (H : Heap) (t : Transaction) (h : Handler)
    (hb : t.transactionHandler = some h)
    (hopen : t.state = OPEN)
    (hid : (H t.sender).id ≠ (H t.recipient).id)
    (hge : handlerEffective h t.amount ≤ (H t.sender).balance)
    (hsb : (H t.sender).balance < 2 ^ 32)
    (hnov : (H t.recipient).balance + handlerEffective h t.amount < 2 ^ 32) :
    ∃ H2 t2, Transaction.makePayment H t = some (H2, t2, none) ∧
      (H2 t.sender).balance + handlerEffective h t.amount = (H t.sender).balance ∧
      (H2 t.recipient).balance = (H t.recipient).balance + handlerEffective h t.amount ∧
      t2.state = CLOSED := by
  have hcl : t.state ≠ CLOSED := by rw [hopen]; simp [OPEN, CLOSED]
  have hex : t.state ≠ EXPIRED := by rw [hopen]; simp [OPEN, EXPIRED]
  have hne : t.sender ≠ t.recipient := fun e => hid (by rw [e])
  refine ⟨settleHeap H t (handlerEffective h t.amount), { t with state := CLOSED },
    ?_, ?_, ?_, rfl⟩
  · rw [makePayment_bound H t h hb, handlerPay_success h H t hid hcl hex hge]
  · rw [settleHeap_sender H t _ hne, u32sub]
    omega
  · rw [settleHeap_recipient H t _ hne, u32add]
    omega

/-- Witness for C1: the demonstration accounts with a debit settlement of
amount 55. -/
theorem c1_witness :
    ∃ H2 t2, Transaction.makePayment demoHeap demoTx = some (H2, t2, none) ∧
      (H2 demoTx.sender).balance + handlerEffective Handler.debit demoTx.amount =
        (demoHeap demoTx.sender).balance ∧
      (H2 demoTx.recipient).balance =
        (demoHeap demoTx.recipient).balance + handlerEffective Handler.debit demoTx.amount ∧
      t2.state = CLOSED :=
  c1_settlement_exact demoHeap demoTx Handler.debit rfl rfl (by decide) (by decide)
    (by decide) (by decide)

/-! Claim C2. -/

/-- C2 counterexample: for the requested amount 4294967295 the exact
value floor(amount * 11 / 10) is 4724464024, which exceeds the uint32
range, and the effective amount the credit handler actually uses is its
low 32 bits 429496728, not the claimed exact floor. -/
theorem c2_counterexample :
    creditEffective 4294967295 ≠ 11 * 4294967295 / 10 := by
  rw [creditEffective_eq 4294967295 (by norm_num)]
  decide

/-- C2 (amended): for every uint32 requested amount, the effective
settlement amount used in the insufficient-balance check and in both
balance mutations is exactly the requested amount for DEBIT, and exactly
floor(amount * 9 / 10) in exact rational arithmetic for CASH; for CREDIT
it is exactly floor(amount * 11 / 10) whenever that floor fits in uint32
(amounts up to 3904515723), and beyond that it is the floor reduced
modulo 2 ^ 32 by the float64-to-uint32 conversion (gc on amd64), which
can never equal the out-of-range exact floor. The float64 arithmetic of
the source never disturbs the exact rational floor for any uint32
amount. -/
theorem c2_effective_amounts (a : ℕ) (ha : a < 2 ^ 32) :
    debitEffective a = a ∧
    cashEffective a = 9 * a / 10 ∧
    creditEffective a = 11 * a / 10 % 2 ^ 32 ∧
    (11 * a / 10 < 2 ^ 32 → creditEffective a = 11 * a / 10) := by
  refine ⟨rfl, cashEffective_eq a ha.le, creditEffective_eq a ha.le, ?_⟩
  intro hlt
  rw [creditEffective_eq a ha.le, Nat.mod_eq_of_lt hlt]

/-- Witness for C2 at the demonstration amount 55. -/
theorem c2_witness :
    55 < 2 ^ 32 ∧
    (debitEffective 55 = 55 ∧ cashEffective 55 = 9 * 55 / 10 ∧
      creditEffective 55 = 11 * 55 / 10 % 2 ^ 32 ∧
      (11 * 55 / 10 < 2 ^ 32 → creditEffective 55 = 11 * 55 / 10)) :=
  ⟨by norm_num, c2_effective_amounts 55 (by norm_num)⟩

/-! Claim C6. -/

lemma selectTransactionHandler_fst (t : Transaction) :
    (Transaction.selectTransactionHandler t).1 =
      { t with transactionHandler :=
          if t.paymentMethod = CREDIT then some Handler.credit
          else if t.paymentMethod = CASH then some Handler.cash
          else if t.paymentMethod = DEBIT then some Handler.debit
          else t.transactionHandler } := by
  rw [Transaction.selectTransactionHandler]
  split_ifs <;> rfl

/-- C6: handler selection binds exactly the strategy matching the payment
method and succeeds for each of the three recognized methods; for every
other payment method value it returns the no-matching-handler error and
binds nothing (in particular an unbound strategy stays unbound); in all
cases every transaction field other than the bound strategy is unchanged
(and the operation takes no heap, so no balance can change); and selecting
again binds the same strategy. -/
theorem c6_handler_selection (t : Transaction) :
    (t.paymentMethod = CREDIT →
      Transaction.selectTransactionHandler t =
        ({ t with transactionHandler := some Handler.credit }, none)) ∧
    (t.paymentMethod = CASH →
      Transaction.selectTransactionHandler t =
        ({ t with transactionHandler := some Handler.cash }, none)) ∧
    (t.paymentMethod = DEBIT →
      Transaction.selectTransactionHandler t =
        ({ t with transactionHandler := some Handler.debit }, none)) ∧
    (t.paymentMethod ≠ CREDIT → t.paymentMethod ≠ CASH → t.paymentMethod ≠ DEBIT →
      Transaction.selectTransactionHandler t =
        (t, some HandlerError.couldNotFindValidHandler)) ∧
    ((Transaction.selectTransactionHandler t).1.id = t.id ∧
      (Transaction.selectTransactionHandler t).1.amount = t.amount ∧
      (Transaction.selectTransactionHandler t).1.sender = t.sender ∧
      (Transaction.selectTransactionHandler t).1.recipient = t.recipient ∧
      (Transaction.selectTransactionHandler t).1.state = t.state ∧
      (Transaction.selectTransactionHandler t).1.paymentMethod = t.paymentMethod) ∧
    (t.transactionHandler = none → t.paymentMethod ≠ CREDIT → t.paymentMethod ≠ CASH →
      t.paymentMethod ≠ DEBIT →
      (Transaction.selectTransactionHandler t).1.transactionHandler = none) ∧
    (Transaction.selectTransactionHandler (Transaction.selectTransactionHandler t).1).1 =
      (Transaction.selectTransactionHandler t).1 := by
  refine ⟨?_, ?_, ?_, ?_, ?_, ?_, ?_⟩
  · intro hm
    rw [Transaction.selectTransactionHandler, if_pos hm]
  · intro hm
    rw [Transaction.selectTransactionHandler,
      if_neg (by rw [hm]; simp [CASH, CREDIT]), if_pos hm]
  · intro hm
    rw [Transaction.selectTransactionHandler,
      if_neg (by rw [hm]; simp [DEBIT, CREDIT]),
      if_neg (by rw [hm]; simp [DEBIT, CASH]), if_pos hm]
  · intro h1 h2 h3
    rw [Transaction.selectTransactionHandler, if_neg h1, if_neg h2, if_neg h3]
  · rw [selectTransactionHandler_fst]
    exact ⟨rfl, rfl, rfl, rfl, rfl, rfl⟩
  · intro hnone h1 h2 h3
    rw [selectTransactionHandler_fst]
    simp only [if_neg h1, if_neg h2, if_neg h3]
    exact hnone
  · rw [selectTransactionHandler_fst t, selectTransactionHandler_fst]
    simp only []
    split_ifs <;> rfl

/-- Witness for C6 at the demonstration transaction (method CASH). -/
theorem c6_witness :
    Transaction.selectTransactionHandler c3tx =
      ({ c3tx with transactionHandler := some Handler.cash }, none) :=
  (c6_handler_selection c3tx).2.1 rfl

/-! Claim C8. -/

/-- C8 counterexample: a successful debit settlement of the largest uint32
amount between two accounts both holding the largest uint32 balance leaves
a combined balance of 4294967294, while the combined balance before the
call was 8589934590: the recipient credit wrapped, so value was
destroyed. -/
theorem c8_counterexample :
    (Option.map (fun r => (r.1 c8tx.sender).balance + (r.1 c8tx.recipient).balance)
      (Transaction.makePayment c8heap c8tx)) = some 4294967294 ∧
    (c8heap c8tx.sender).balance + (c8heap c8tx.recipient).balance = 8589934590 ∧
    (4294967294 : ℕ) ≠ 8589934590 := ⟨rfl, rfl, by decide⟩

/-- C8 (amended): for every successful settlement between uint32-valued
accounts, the sum of the sender and recipient balances is preserved modulo
2 ^ 32; it is preserved exactly whenever the recipient balance plus the
effective amount fits in uint32 (the same effective value is debited from
one side and credited to the other; only the wrap of the recipient credit
can destroy value, as c8_counterexample shows). -/
theorem c8_conservation (H H2 : Heap) (t t2 : Transaction) (h : Handler)
    (hb : t.transactionHandler = some h)
    (hsb : (H t.sender).balance < 2 ^ 32)
    (hrb : (H t.recipient).balance < 2 ^ 32)
    (hsuc : Transaction.makePayment H t = some (H2, t2, none)) :
    ((H2 t.sender).balance + (H2 t.recipient).balance) % 2 ^ 32 =
      ((H t.sender).balance + (H t.recipient).balance) % 2 ^ 32 ∧
    ((H t.recipient).balance + handlerEffective h t.amount < 2 ^ 32 →
      (H2 t.sender).balance + (H2 t.recipient).balance =
        (H t.sender).balance + (H t.recipient).balance) := by
  rw [makePayment_bound H t h hb] at hsuc
  obtain ⟨hid, hcl, hex, hge, hH2, ht2⟩ :=
    handlerPay_success_inv h H H2 t t2 (Option.some.inj hsuc)
  have hne : t.sender ≠ t.recipient := fun e => hid (by rw [e])
  rw [hH2, settleHeap_sender H t _ hne, settleHeap_recipient H t _ hne, u32sub, u32add]
  constructor
  · omega
  · intro hnov
    omega

/-- Witness for C8: the demonstration debit settlement, whose sums balance
exactly. -/
theorem c8_witness :
    (((settleHeap demoHeap demoTx (handlerEffective Handler.debit demoTx.amount))
          demoTx.sender).balance +
        ((settleHeap demoHeap demoTx (handlerEffective Handler.debit demoTx.amount))
          demoTx.recipient).balance) % 2 ^ 32 =
      ((demoHeap demoTx.sender).balance + (demoHeap demoTx.recipient).balance) % 2 ^ 32 ∧
    ((demoHeap demoTx.recipient).balance + handlerEffective Handler.debit demoTx.amount <
        2 ^ 32 →
      ((settleHeap demoHeap demoTx (handlerEffective Handler.debit demoTx.amount))
            demoTx.sender).balance +
          ((settleHeap demoHeap demoTx (handlerEffective Handler.debit demoTx.amount))
            demoTx.recipient).balance =
        (demoHeap demoTx.sender).balance + (demoHeap demoTx.recipient).balance) :=
  c8_conservation demoHeap
    (settleHeap demoHeap demoTx (handlerEffective Handler.debit demoTx.amount)) demoTx
    { demoTx with state := CLOSED } Handler.debit rfl (by decide) (by decide) rfl

/-! Claim C9. -/

lemma stepOp_balanceInv (w : Heap × List Transaction) (op : Op)
    (hinv : balanceInv w.1) : balanceInv (stepOp w op).1 := by
  rcases op with i | i
  · cases hg : w.2.get? i with
    | none => simpa only [stepOp, hg] using hinv
    | some t => simpa only [stepOp, hg] using hinv
  · cases hg : w.2.get? i with
    | none => simpa only [stepOp, hg] using hinv
    | some t =>
      cases hm : Transaction.makePayment w.1 t with
      | none => simpa only [stepOp, hg, hm] using hinv
      | some r =>
        obtain ⟨H2, t2, e⟩ := r
        have hgoal : balanceInv H2 := by
          cases ht : t.transactionHandler with
          | none =>
            rw [makePayment_unbound w.1 t ht] at hm
            exact absurd hm (by simp)
          | some h =>
            rw [makePayment_bound w.1 t h ht] at hm
            have hp := Option.some.inj hm
            cases e with
            | none =>
              obtain ⟨-, -, -, -, hH2, -⟩ := handlerPay_success_inv h w.1 H2 t t2 hp
              intro n
              rw [hH2]
              exact settleHeap_balance_lt w.1 t _ n hinv
            | some e2 =>
              obtain ⟨hH2, -⟩ := handlerPay_error_inv h w.1 H2 t t2 e2 hp
              intro n
              rw [hH2]
              exact hinv n
        simpa only [stepOp, hg, hm] using hgoal

/-- C9: starting from any system whose account balances are all uint32
values, after any sequence of handler selections and payments every
account balance is still a natural number below 2 ^ 32: balances never
become negative and never leave the uint32 range. Moreover a settlement
only ever debits the sender after the check that its balance covers the
effective amount, so the guarded uint32 subtraction never wraps. -/
theorem c9_balances_stay_uint32 :
    (∀ (w : Heap × List Transaction) (ops : List Op), balanceInv w.1 →
      balanceInv (runOps w ops).1) ∧
    (∀ (H H2 : Heap) (t t2 : Transaction) (h : Handler), t.transactionHandler = some h →
      Transaction.makePayment H t = some (H2, t2, none) →
      handlerEffective h t.amount ≤ (H t.sender).balance) := by
  constructor
  · intro w ops
    induction ops generalizing w with
    | nil => exact fun hinv => hinv
    | cons op ops ih =>
      intro hinv
      rw [runOps, List.foldl_cons]
      exact ih (stepOp w op) (stepOp_balanceInv w op hinv)
  · intro H H2 t t2 h hb hsuc
    rw [makePayment_bound H t h hb] at hsuc
    obtain ⟨-, -, -, hge, -, -⟩ :=
      handlerPay_success_inv h H H2 t t2 (Option.some.inj hsuc)
    exact hge

/-- Witness for C9: a pay operation on the demonstration system keeps all
balances inside uint32. -/
theorem c9_witness :
    balanceInv (runOps (demoHeap, [demoTx]) [Op.pay 0]).1 :=
  c9_balances_stay_uint32.1 (demoHeap, [demoTx]) [Op.pay 0]
    (fun n => by by_cases h : n = 0 <;> simp [demoHeap, h])

/-! Claim C10. -/

/-- C10: balances are uint32 values and the recipient credit is an
unguarded uint32 addition. For every settlement whose validation passes
and whose recipient balance plus the effective amount reaches 2 ^ 32, no
validation step rejects the settlement: it succeeds, the recipient stored
balance wraps to its value modulo 2 ^ 32 (ending strictly lower than it
started), and the sum of the two balances is preserved only modulo
2 ^ 32. -/
theorem c10_recipient_overflow_wraps (H : Heap) (t : Transaction) (h : Handler)
    (hb : t.transactionHandler = some h)
    (hid : (H t.sender).id ≠ (H t.recipient).id)
    (hcl : t.state ≠ CLOSED) (hex : t.state ≠ EXPIRED)
    (hge : handlerEffective h t.amount ≤ (H t.sender).balance)
    (hsb : (H t.sender).balance < 2 ^ 32)
    (hrb : (H t.recipient).balance < 2 ^ 32)
    (hov : 2 ^ 32 ≤ (H t.recipient).balance + handlerEffective h t.amount) :
    ∃ H2 t2, Transaction.makePayment H t = some (H2, t2, none) ∧
      (H2 t.recipient).balance =
        (H t.recipient).balance + handlerEffective h t.amount - 2 ^ 32 ∧
      (H2 t.recipient).balance < (H t.recipient).balance ∧
      ((H2 t.sender).balance + (H2 t.recipient).balance) % 2 ^ 32 =
        ((H t.sender).balance + (H t.recipient).balance) % 2 ^ 32 := by
  have hne : t.sender ≠ t.recipient := fun e => hid (by rw [e])
  refine ⟨settleHeap H t (handlerEffective h t.amount), { t with state := CLOSED },
    by rw [makePayment_bound H t h hb, handlerPay_success h H t hid hcl hex hge], ?_, ?_, ?_⟩
  · rw [settleHeap_recipient H t _ hne, u32add]
    omega
  · rw [settleHeap_recipient H t _ hne, u32add]
    omega
  · rw [settleHeap_sender H t _ hne, settleHeap_recipient H t _ hne, u32sub, u32add]
    omega

/-- Witness for C10: a debit of 100 into an account holding 4294967290
wraps its balance to 94. -/
theorem c10_witness :
    ∃ H2 t2, Transaction.makePayment c10heap c10tx = some (H2, t2, none) ∧
      (H2 c10tx.recipient).balance =
        (c10heap c10tx.recipient).balance + handlerEffective Handler.debit c10tx.amount -
          2 ^ 32 ∧
      (H2 c10tx.recipient).balance < (c10heap c10tx.recipient).balance ∧
      ((H2 c10tx.sender).balance + (H2 c10tx.recipient).balance) % 2 ^ 32 =
        ((c10heap c10tx.sender).balance + (c10heap c10tx.recipient).balance) % 2 ^ 32 :=
  c10_recipient_overflow_wraps c10heap c10tx Handler.debit rfl (by decide) (by decide)
    (by decide) (by decide) (by decide) (by decide) (by decide)

end DipGo
